import Mathlib

set_option maxRecDepth 16000

/-!
# Verification of the coordinate-loading core of `geoloc/view.py`

This file is a shallow embedding, in Lean 4, of the pure core of the map
script `src/geoloc/view.py`: the CSV coordinate loader (`load_csv_points`
with its helper `parse_float`), the palette generator (`generate_palette`
with `hls_to_rgb` and `rgb_to_hex`), and the bounds aggregator
(`fit_bounds_from_points`).

Modelling conventions:

* Python floats are modelled as exact rationals (`ℚ`).  Every concrete
  value appearing in the claims (coordinates such as `37.4`, channel
  constants such as `0.8`) is an exact decimal, so the range checks and
  comparisons the code performs coincide with the rational ones.
* A CSV file is modelled after `csv.reader`'s output: a list of rows,
  each row a list of string fields.  The first row is the header
  (`next(reader, None)` yields `none` on an empty file, and an empty
  list on a blank first line; both are falsy in `if header:`).
* Python exceptions are modelled with `Except String`: an out-of-range
  list access (`row[i]` raising `IndexError`) produces `.error`, which
  propagates out of the row loop exactly as an uncaught exception would.
* `float(...)` string parsing is modelled by a decimal-literal grammar
  (optional sign, integer digits and/or fractional digits, optional
  exponent), after Python's whitespace strip.  The named literals
  `nan`/`inf` are mapped to `none`: the code itself turns a parsed NaN
  into `None` (the `v != v` check in `parse_float`), and an infinity
  always fails the subsequent `[-90,90]`/`[-180,180]` range check, so no
  observable behaviour of the loader distinguishes the two collapses.
  Digit-group underscores are not modelled.
* `int(...)` on a nonnegative float truncates, which on nonnegative
  rationals is the floor; `%02x` on a value in `[0, 256)` is two
  lowercase hex digits.
-/

namespace Geoloc

/-- A geographic point `(lat, lon)`, Python's `LatLng = Tuple[float, float]`. -/
abbrev Point := ℚ × ℚ

/-! ## `parse_float` (view.py lines 66-73) -/

/-- ASCII whitespace stripped by Python's `str.strip()`. -/
def isPySpace (c : Char) : Bool :=
  c = ' ' || c = '\t' || c = '\n' || c = '\r' || c = '\x0b' || c = '\x0c'

/-- Python `str.strip()`: drop whitespace from both ends. -/
def pyStrip (s : String) : String :=
  ⟨((s.data.dropWhile isPySpace).reverse.dropWhile isPySpace).reverse⟩

/-- Read an optional leading sign; returns `(isNegative, rest)`. -/
def readSign : List Char → Bool × List Char
  | '+' :: cs => (false, cs)
  | '-' :: cs => (true, cs)
  | cs => (false, cs)

/-- Take a maximal run of decimal digits, as digit values. -/
def takeDigits : List Char → List ℕ × List Char
  | [] => ([], [])
  | c :: cs =>
    if c.isDigit then
      let (ds, r) := takeDigits cs
      ((c.toNat - '0'.toNat) :: ds, r)
    else ([], c :: cs)

/-- Value of a digit string, most significant digit first. -/
def digitsToNat (ds : List ℕ) : ℕ :=
  ds.foldl (fun a d => 10 * a + d) 0

/-- Apply a decimal exponent to a mantissa. -/
def applyExp (m : ℚ) (negE : Bool) (e : ℕ) : ℚ :=
  if negE then m / 10 ^ e else m * 10 ^ e

/-- Parse the optional exponent part and require the string be exhausted. -/
def finishFloat (m : ℚ) : List Char → Option ℚ
  | [] => some m
  | 'e' :: cs =>
    let (negE, cs1) := readSign cs
    let (ed, cs2) := takeDigits cs1
    if ed.isEmpty || !cs2.isEmpty then none else some (applyExp m negE (digitsToNat ed))
  | 'E' :: cs =>
    let (negE, cs1) := readSign cs
    let (ed, cs2) := takeDigits cs1
    if ed.isEmpty || !cs2.isEmpty then none else some (applyExp m negE (digitsToNat ed))
  | _ => none

/-- Signed mantissa of a decimal literal with integer digits `ip` and
fractional digits `fp`. -/
def mantissa (neg : Bool) (ip fp : List ℕ) : ℚ :=
  (if neg then -1 else 1) *
    ((digitsToNat ip : ℚ) + (digitsToNat fp : ℚ) / 10 ^ fp.length)

/-- Python `float(str)` on an already-stripped string, over the decimal
grammar `[sign] (digits [. digits] | . digits) [(e|E) [sign] digits]`. -/
def pyFloat (s : String) : Option ℚ :=
  let (neg, cs1) := readSign s.data
  let (ip, cs2) := takeDigits cs1
  match cs2 with
  | '.' :: rest =>
    let (fp, cs3) := takeDigits rest
    if ip.isEmpty && fp.isEmpty then none
    else finishFloat (mantissa neg ip fp) cs3
  | _ =>
    if ip.isEmpty then none
    else finishFloat (mantissa neg ip []) cs2

/-- `parse_float` (view.py 66-73): strip, parse as float, reject NaN. -/
def parse_float (value : String) : Option ℚ :=
  pyFloat (pyStrip value)

/-! ## Column resolution in `load_csv_points` (view.py 86-113) -/

/-- `lat_candidates` (view.py 92). -/
def lat_candidates : List String := ["latitude", "lat", "y"]

/-- `lon_candidates` (view.py 93). -/
def lon_candidates : List String := ["longitude", "lon", "lng", "x"]

/-- Header-name normalisation `c.strip().lower()` (view.py 90). -/
def normCol (c : String) : String := (pyStrip c).toLower

/-- The scanning loop of view.py 95-99: walk the columns with a running
index, recording the first latitude match and the first longitude match. -/
def scanCols (i : ℕ) (st : Option ℕ × Option ℕ) : List String → Option ℕ × Option ℕ
  | [] => st
  | c :: cs =>
    let la := if st.1 = none && lat_candidates.contains c then some i else st.1
    let lo := if st.2 = none && lon_candidates.contains c then some i else st.2
    scanCols (i + 1) (la, lo) cs

/-- Column resolution for a non-empty header (view.py 89-113): normalise,
scan for synonyms, fall back on column counts, and as a last resort
assume `(1, 2)`. -/
def resolve_indices (header : List String) : ℕ × ℕ :=
  let cols := header.map normCol
  let st := scanCols 0 (none, none) cols
  let st :=
    if st.1 = none || st.2 = none then
      if 3 ≤ cols.length then (some 1, some 2)
      else if 2 ≤ cols.length then (some 0, some 1)
      else st
    else st
  match st with
  | (some i, some j) => (i, j)
  | _ => (1, 2)

/-! ## Row parsing in `load_csv_points` (view.py 115-132) -/

/-- Python `"," in s`. -/
def containsComma (s : String) : Bool := s.data.contains ','

/-- Python `s.split(",", 1)`: the parts before and after the first comma
(only used under a `containsComma` guard). -/
def splitLoc (s : String) : String × String :=
  (⟨s.data.takeWhile (· ≠ ',')⟩, ⟨(s.data.dropWhile (· ≠ ',')).drop 1⟩)

/-- The row actually indexed by the loop body (view.py 116-125): `none`
means the row is skipped (`continue`); a short 2-field row whose second
field holds a comma is repaired into a 3-field row. -/
def effective_row (li lj : ℕ) (row : List String) : Option (List String) :=
  if row.isEmpty then none
  else if row.length ≤ max li lj then
    if row.length = 2 && containsComma (row.getD 1 "") then
      some [row.getD 0 "", (splitLoc (row.getD 1 "")).1, (splitLoc (row.getD 1 "")).2]
    else none
  else some row

/-- Field access, parsing and range check (view.py 126-132).  A list
access past the end is Python's `IndexError`. -/
def extract_point (li lj : ℕ) (row : List String) : Except String (Option Point) :=
  match row.get? li with
  | none => .error "IndexError"
  | some latS =>
    match row.get? lj with
    | none => .error "IndexError"
    | some lonS =>
      match parse_float latS, parse_float lonS with
      | some lat, some lon =>
        if -90 ≤ lat ∧ lat ≤ 90 ∧ -180 ≤ lon ∧ lon ≤ 180 then .ok (some (lat, lon))
        else .ok none
      | _, _ => .ok none

/-- One iteration of the row loop (view.py 115-132). -/
def process_row (li lj : ℕ) (row : List String) : Except String (Option Point) :=
  match effective_row li lj row with
  | none => .ok none
  | some r => extract_point li lj r

/-- The row loop: collect the points of the data rows in order, stopping
with the exception if one iteration raises. -/
def load_rows (li lj : ℕ) : List (List String) → Except String (List Point)
  | [] => .ok []
  | row :: rest =>
    match process_row li lj row with
    | .error e => .error e
    | .ok p =>
      match load_rows li lj rest with
      | .error e => .error e
      | .ok ps => .ok (p.toList ++ ps)

/-- `load_csv_points` (view.py 76-134) on the row list produced by
`csv.reader`: no first row (empty file) or a falsy (empty) header yields
the empty trajectory; otherwise resolve the column indices and run the
row loop. -/
def load_csv_points (rows : List (List String)) : Except String (List Point) :=
  match rows with
  | [] => .ok []
  | header :: rest =>
    if header.isEmpty then .ok []
    else
      let (li, lj) := resolve_indices header
      load_rows li lj rest

/-! ## Palette generation (view.py 137-163, with stdlib `colorsys`) -/

/-- Python float `x % 1.0`: the fractional part `x - ⌊x⌋`, in `[0, 1)`. -/
def pymod1 (q : ℚ) : ℚ := q - ⌊q⌋

/-- Python `int(...)` on a float: truncation toward zero. -/
def pyint (q : ℚ) : ℤ := if 0 ≤ q then ⌊q⌋ else -⌊-q⌋

/-- `colorsys._v(m1, m2, hue)` from the Python standard library, with the
exact thirds and sixths the float code approximates. -/
def hls_v (m1 m2 hue : ℚ) : ℚ :=
  let hue := pymod1 hue
  if hue < 1/6 then m1 + (m2 - m1) * hue * 6
  else if hue < 1/2 then m2
  else if hue < 2/3 then m1 + (m2 - m1) * (2/3 - hue) * 6
  else m1

/-- `colorsys.hls_to_rgb(h, l, s)` from the Python standard library:
channels in `[0, 1]`. -/
def colorsys_hls_to_rgb (h l s : ℚ) : ℚ × ℚ × ℚ :=
  if s = 0 then (l, l, l)
  else
    let m2 := if l ≤ 1/2 then l * (1 + s) else l + s - l * s
    let m1 := 2 * l - m2
    (hls_v m1 m2 (h + 1/3), hls_v m1 m2 h, hls_v m1 m2 (h - 1/3))

/-- `hls_to_rgb` (view.py 154-159): scale the `colorsys` channels to
`0..255` and truncate with `int(...)`. -/
def hls_to_rgb (h l s : ℚ) : ℤ × ℤ × ℤ :=
  let c := colorsys_hls_to_rgb h l s
  (pyint (c.1 * 255), pyint (c.2.1 * 255), pyint (c.2.2 * 255))

/-- One lowercase hexadecimal digit. -/
def hexChar (n : ℕ) : Char :=
  if n < 10 then Char.ofNat ('0'.toNat + n) else Char.ofNat ('a'.toNat + (n - 10))

/-- Python `f"{n:02x}"` for `0 ≤ n < 256`: two lowercase hex digits. -/
def toHex2 (n : ℕ) : List Char := [hexChar (n / 16), hexChar (n % 16)]

/-- `rgb_to_hex` (view.py 162-163): `f"#{r:02x}{g:02x}{b:02x}"`.  The
channels produced by `hls_to_rgb` lie in `[0, 255]`, where Python's
`%02x` is the two-digit form modelled by `toHex2`. -/
def rgb_to_hex (r g b : ℤ) : String :=
  ⟨'#' :: (toHex2 r.toNat ++ toHex2 g.toNat ++ toHex2 b.toNat)⟩

/-- A lowercase hexadecimal digit, as produced by Python's `%x`. -/
def isLowerHex (c : Char) : Bool :=
  ('0' ≤ c && c ≤ '9') || ('a' ≤ c && c ≤ 'f')

/-- `generate_palette` (view.py 137-151). -/
def generate_palette (n : ℤ) : List String :=
  if n ≤ 0 then []
  else
    (List.range n.toNat).map fun (i : ℕ) =>
      let h := pymod1 ((i : ℚ) / ((max 1 n : ℤ) : ℚ))
      let c := hls_to_rgb h (1/2) (4/5)
      rgb_to_hex c.1 c.2.1 c.2.2

/-! ## `fit_bounds_from_points` (view.py 166-177) -/

/-- Python `min` over a non-empty list. -/
def listMin (x : ℚ) (xs : List ℚ) : ℚ := xs.foldl min x

/-- Python `max` over a non-empty list. -/
def listMax (x : ℚ) (xs : List ℚ) : ℚ := xs.foldl max x

/-- `fit_bounds_from_points` (view.py 166-177): gather every latitude
and every longitude over the trajectories (in insertion order, as
`dict.values()` iterates), and return `[(min lat, min lon), (max lat,
max lon)]`, or `none` when there are no points at all. -/
def fit_bounds_from_points (points_by_file : List (String × List Point)) :
    Option (List Point) :=
  let pts := (points_by_file.map Prod.snd).flatten
  let lats := pts.map Prod.fst
  let lons := pts.map Prod.snd
  match lats, lons with
  | [], _ => none
  | _, [] => none
  | a :: as_, b :: bs =>
    some [(listMin a as_, listMin b bs), (listMax a as_, listMax b bs)]

/-- All points of all trajectories, in iteration order: exactly the
pairs the double loop of `fit_bounds_from_points` walks. -/
def all_points (points_by_file : List (String × List Point)) : List Point :=
  (points_by_file.map Prod.snd).flatten

/-- The coordinate range check of view.py 131. -/
def inRange (p : Point) : Prop :=
  -90 ≤ p.1 ∧ p.1 ≤ 90 ∧ -180 ≤ p.2 ∧ p.2 ≤ 180

instance (p : Point) : Decidable (inRange p) := by unfold inRange; infer_instance

/-! ## Lemmas about column resolution -/

/-- The scanning loop computes, for each axis independently, the first
match at or after the running index, unless that axis is already set. -/
theorem scanCols_eq (cols : List String) (i : ℕ) (la lo : Option ℕ) :
    scanCols i (la, lo) cols =
      ((match la with
        | some a => some a
        | none => cols.findIdx? lat_candidates.contains i),
       (match lo with
        | some b => some b
        | none => cols.findIdx? lon_candidates.contains i)) := by
  induction cols generalizing i la lo with
  | nil => cases la <;> cases lo <;> simp [scanCols]
  | cons c cs ih =>
    rw [scanCols, ih]
    cases la <;> cases lo <;>
      by_cases h1 : c ∈ lat_candidates <;>
      by_cases h2 : c ∈ lon_candidates <;>
      simp [h1, h2, List.findIdx?]

/-- `resolve_indices`, characterised through first-match search on the
normalised header: synonym scan, then the two column-count fallbacks,
then the `(1, 2)` last resort. -/
theorem resolve_indices_eq (header : List String) :
    resolve_indices header =
      match (header.map normCol).findIdx? lat_candidates.contains,
            (header.map normCol).findIdx? lon_candidates.contains with
      | some i, some j => (i, j)
      | _, _ =>
        if 3 ≤ header.length then (1, 2)
        else if 2 ≤ header.length then (0, 1)
        else (1, 2) := by
  simp only [resolve_indices]
  rw [scanCols_eq]
  rcases h1 : (header.map normCol).findIdx? lat_candidates.contains with _ | i <;>
    rcases h2 : (header.map normCol).findIdx? lon_candidates.contains with _ | j <;>
      simp [h1, h2] <;> split_ifs <;> rfl

/-! ## Lemmas about the row loop -/

/-- A point accepted by `extract_point` passed the range check. -/
theorem extract_point_range {li lj : ℕ} {row : List String} {p : Point}
    (h : extract_point li lj row = .ok (some p)) : inRange p := by
  unfold extract_point at h
  rcases e1 : row.get? li with _ | latS <;> rw [e1] at h <;> dsimp only at h
  · exact absurd h (by simp)
  rcases e2 : row.get? lj with _ | lonS <;> rw [e2] at h <;> dsimp only at h
  · exact absurd h (by simp)
  rcases p1 : parse_float latS with _ | lat <;>
    rcases p2 : parse_float lonS with _ | lon <;>
      rw [p1, p2] at h <;> dsimp only at h <;> try simp at h
  split at h
  case isTrue hc =>
    obtain rfl : (lat, lon) = p := by simpa using h
    exact hc
  case isFalse => simp at h

/-- A point produced by one loop iteration passed the range check. -/
theorem process_row_range {li lj : ℕ} {row : List String} {p : Point}
    (h : process_row li lj row = .ok (some p)) : inRange p := by
  unfold process_row at h
  split at h
  · simp at h
  · exact extract_point_range h

/-- Every point collected by the row loop passed the range check. -/
theorem load_rows_range {li lj : ℕ} : ∀ {rows : List (List String)} {pts : List Point},
    load_rows li lj rows = .ok pts → ∀ p ∈ pts, inRange p := by
  intro rows
  induction rows with
  | nil =>
    intro pts h p hp
    rw [load_rows] at h
    cases h
    simp at hp
  | cons row rest ih =>
    intro pts h p hp
    rw [load_rows] at h
    rcases e1 : process_row li lj row with e | o <;> rw [e1] at h
    · exact absurd h (by simp)
    rcases e2 : load_rows li lj rest with e | ps <;> rw [e2] at h
    · exact absurd h (by simp)
    cases h
    rcases List.mem_append.mp hp with h3 | h3
    · cases o with
      | none => simp at h3
      | some q =>
        obtain rfl : p = q := by simpa using h3
        exact process_row_range e1
    · exact ih e2 p h3

/-- A row whose iteration contributes nothing can be removed from the
data rows without changing the loop's outcome. -/
theorem load_rows_skip {li lj : ℕ} {row : List String}
    (hrow : process_row li lj row = .ok none) :
    ∀ (pre post : List (List String)),
      load_rows li lj (pre ++ row :: post) = load_rows li lj (pre ++ post) := by
  intro pre post
  induction pre with
  | nil =>
    simp only [List.nil_append]
    rw [load_rows, hrow]
    rcases e2 : load_rows li lj post with e | ps <;> simp
  | cons r rs ih =>
    simp only [List.cons_append]
    rw [load_rows, load_rows]
    rw [ih]

/-- Unfolding `load_csv_points` under a non-empty header. -/
theorem load_csv_points_cons (header : List String) (rest : List (List String))
    (h : header.isEmpty = false) :
    load_csv_points (header :: rest) =
      load_rows (resolve_indices header).1 (resolve_indices header).2 rest := by
  rw [load_csv_points, h]
  rfl

/-- `extract_point` cannot raise when both indices are inside the row. -/
theorem extract_point_ok {li lj : ℕ} {r : List String}
    (h1 : li < r.length) (h2 : lj < r.length) :
    ∃ o, extract_point li lj r = .ok o := by
  unfold extract_point
  rcases e1 : r.get? li with _ | latS
  · exact absurd (List.get?_eq_none.mp e1) (by omega)
  rcases e2 : r.get? lj with _ | lonS
  · exact absurd (List.get?_eq_none.mp e2) (by omega)
  dsimp only
  rcases p1 : parse_float latS with _ | lat <;>
    rcases p2 : parse_float lonS with _ | lon <;> dsimp only
  · exact ⟨none, rfl⟩
  · exact ⟨none, rfl⟩
  · exact ⟨none, rfl⟩
  · split_ifs with hr
    · exact ⟨some (lat, lon), rfl⟩
    · exact ⟨none, rfl⟩

/-- With both resolved indices at most 2 — as after every fallback — no
row can make the loop raise. -/
theorem process_row_ok {li lj : ℕ} (h1 : li ≤ 2) (h2 : lj ≤ 2)
    (row : List String) : ∃ o, process_row li lj row = .ok o := by
  unfold process_row effective_row
  by_cases he : row.isEmpty
  · rw [if_pos he]; exact ⟨none, rfl⟩
  rw [if_neg he]
  by_cases hs : row.length ≤ max li lj
  · rw [if_pos hs]
    by_cases hc : (decide (row.length = 2) && containsComma (row.getD 1 "")) = true
    · rw [if_pos hc]
      exact extract_point_ok (by simp; omega) (by simp; omega)
    · rw [if_neg hc]; exact ⟨none, rfl⟩
  · rw [if_neg hs]
    have hmax : max li lj < row.length := by omega
    exact extract_point_ok (by omega) (by omega)

/-- With both resolved indices at most 2, the whole row loop succeeds. -/
theorem load_rows_ok {li lj : ℕ} (h1 : li ≤ 2) (h2 : lj ≤ 2) :
    ∀ rows : List (List String), ∃ pts, load_rows li lj rows = .ok pts := by
  intro rows
  induction rows with
  | nil => exact ⟨[], rfl⟩
  | cons row rest ih =>
    obtain ⟨o, ho⟩ := process_row_ok h1 h2 row
    obtain ⟨ps, hps⟩ := ih
    refine ⟨o.toList ++ ps, ?_⟩
    rw [load_rows, ho, hps]

/-- No header name is both a latitude and a longitude synonym. -/
theorem candidates_disjoint (s : String) (h1 : s ∈ lat_candidates)
    (h2 : s ∈ lon_candidates) : False := by
  simp [lat_candidates] at h1
  rcases h1 with rfl | rfl | rfl <;> exact absurd h2 (by decide)

/-! ## The claims -/

/-- Claim C1: every `(lat, lon)` in a loaded trajectory satisfies
`-90 ≤ lat ≤ 90` and `-180 ≤ lon ≤ 180`; and a data row whose candidate
fields fail to parse, or parse to an out-of-range pair, contributes no
point and raises no error — deleting that row leaves the loader's result
unchanged. -/
theorem claim_C1 :
    (∀ (rows : List (List String)) (pts : List Point),
      load_csv_points rows = .ok pts →
      ∀ p ∈ pts, -90 ≤ p.1 ∧ p.1 ≤ 90 ∧ -180 ≤ p.2 ∧ p.2 ≤ 180) ∧
    (∀ (header row : List String) (pre post : List (List String))
        (r : List String) (latS lonS : String),
      effective_row (resolve_indices header).1 (resolve_indices header).2 row = some r →
      r.get? (resolve_indices header).1 = some latS →
      r.get? (resolve_indices header).2 = some lonS →
      (parse_float latS = none ∨ parse_float lonS = none ∨
        ∀ lat lon, parse_float latS = some lat → parse_float lonS = some lon →
          ¬(-90 ≤ lat ∧ lat ≤ 90 ∧ -180 ≤ lon ∧ lon ≤ 180)) →
      load_csv_points (header :: (pre ++ row :: post)) =
        load_csv_points (header :: (pre ++ post))) := by
  constructor
  · intro rows pts h p hp
    match rows with
    | [] =>
      rw [load_csv_points] at h
      simp only [Except.ok.injEq] at h
      subst h
      simp at hp
    | header :: rest =>
      by_cases hh : header.isEmpty = true
      · rw [load_csv_points, hh] at h
        simp only [if_true] at h
        simp only [Except.ok.injEq] at h
        subst h
        simp at hp
      · rw [load_csv_points_cons _ _ (by simpa using hh)] at h
        exact load_rows_range h p hp
  · intro header row pre post r latS lonS heff hlat hlon hbad
    have hext : extract_point (resolve_indices header).1 (resolve_indices header).2 r =
        .ok none := by
      unfold extract_point
      rw [hlat]
      dsimp only
      rw [hlon]
      dsimp only
      rcases p1 : parse_float latS with _ | lat <;>
        rcases p2 : parse_float lonS with _ | lon <;> dsimp only
      have hnr : ¬(-90 ≤ lat ∧ lat ≤ 90 ∧ -180 ≤ lon ∧ lon ≤ 180) := by
        rcases hbad with h | h | h
        · rw [h] at p1; cases p1
        · rw [h] at p2; cases p2
        · exact h lat lon p1 p2
      rw [if_neg hnr]
    have hpr : process_row (resolve_indices header).1 (resolve_indices header).2 row =
        .ok none := by
      unfold process_row
      rw [heff]
      exact hext
    by_cases hh : header.isEmpty = true
    · rw [load_csv_points, load_csv_points, hh]
      rfl
    · have hh' : header.isEmpty = false := by simpa using hh
      rw [load_csv_points_cons _ _ hh', load_csv_points_cons _ _ hh']
      exact load_rows_skip hpr pre post

/-- Witness for C1 at a concrete input: the out-of-range row
`["100", "0"]` under header `["lat", "lon"]` contributes nothing. -/
theorem claim_C1_witness :
    load_csv_points [["lat", "lon"], ["100", "0"], ["1", "2"]] =
      load_csv_points [["lat", "lon"], ["1", "2"]] :=
  claim_C1.2 ["lat", "lon"] ["100", "0"] [] [["1", "2"]] ["100", "0"] "100" "0"
    (by with_unfolding_all rfl) (by with_unfolding_all rfl) (by with_unfolding_all rfl)
    (Or.inr (Or.inr (fun lat lon h1 h2 => by
      have e1 : parse_float "100" = some 100 := by with_unfolding_all rfl
      have e2 : parse_float "0" = some 0 := by with_unfolding_all rfl
      rw [e1] at h1
      rw [e2] at h2
      obtain rfl : lat = (100 : ℚ) := by simpa using h1.symm
      intro hc
      exact absurd hc.2.1 (by norm_num))))

/-- Claim C2: header names are normalised by strip-and-lowercase; the
latitude index is the first synonym match and the longitude index,
independently, the first match of its list; with at least two columns,
an unresolved axis falls back to `(1, 2)` when there are at least three
columns and to `(0, 1)` otherwise; and the named example loads to the
point `(37.4, -122.1)`. -/
theorem claim_C2 :
    (∀ header : List String, 2 ≤ header.length →
      resolve_indices header =
        match (header.map normCol).findIdx? lat_candidates.contains,
              (header.map normCol).findIdx? lon_candidates.contains with
        | some i, some j => (i, j)
        | _, _ => if 3 ≤ header.length then (1, 2) else (0, 1)) ∧
    load_csv_points [["ip", "latitude", "longitude"], ["8.8.8.8", "37.4", "-122.1"]] =
      .ok [(37.4, -122.1)] := by
  constructor
  · intro header h2
    rw [resolve_indices_eq]
    rcases (header.map normCol).findIdx? lat_candidates.contains with _ | i <;>
      rcases (header.map normCol).findIdx? lon_candidates.contains with _ | j <;>
        dsimp only <;> split_ifs <;> rfl
  · with_unfolding_all rfl

/-- Witness for C2 at the concrete header `["ip", "latitude",
"longitude"]`: the synonym scan resolves indices `(1, 2)`. -/
theorem claim_C2_witness :
    resolve_indices ["ip", "latitude", "longitude"] = (1, 2) := by
  have h := claim_C2.1 ["ip", "latitude", "longitude"] (by decide)
  rw [h]
  with_unfolding_all rfl

/-- Counterexample to C3 as stated: under header `["x", "y"]` the row
`["1.0", "2.0"]` loads to the point `(2, 1)` — latitude `2.0` from the
`y` column, longitude `1.0` from the `x` column — not `(1, 2)`. -/
theorem claim_C3_counterexample :
    load_csv_points [["x", "y"], ["1.0", "2.0"]] = .ok [(2, 1)] ∧
    load_csv_points [["x", "y"], ["1.0", "2.0"]] ≠ .ok [(1, 2)] := by
  have h : load_csv_points [["x", "y"], ["1.0", "2.0"]] = .ok [(2, 1)] := by
    with_unfolding_all rfl
  refine ⟨h, fun hc => ?_⟩
  rw [h] at hc
  simp only [Except.ok.injEq, List.cons.injEq, Prod.mk.injEq, and_true] at hc
  exact absurd hc.1 (by norm_num)

/-- Claim C3 as amended: header `["x", "y"]` is matched by the synonym
lists (`y` is a latitude synonym, `x` a longitude synonym), so the row
`["1.0", "2.0"]` yields the single point `(2.0, 1.0)`. -/
theorem claim_C3 :
    load_csv_points [["x", "y"], ["1.0", "2.0"]] = .ok [(2.0, 1.0)] := by
  with_unfolding_all rfl

/-- Claim C4: a data row shorter than the resolved indices require gets
exactly one repair attempt — a 2-field row whose second field holds a
comma is re-read as the 3-field row (identifier, latitude, longitude);
every other short row is skipped; and the named example loads to the
point `(48.85, 2.35)`. -/
theorem claim_C4 :
    (∀ (li lj : ℕ) (row : List String), row.length ≤ max li lj →
      ((row.length = 2 ∧ containsComma (row.getD 1 "") = true) →
        process_row li lj row =
          extract_point li lj
            [row.getD 0 "", (splitLoc (row.getD 1 "")).1, (splitLoc (row.getD 1 "")).2]) ∧
      (¬(row.length = 2 ∧ containsComma (row.getD 1 "") = true) →
        process_row li lj row = .ok none)) ∧
    load_csv_points [["ip", "latitude", "longitude"], ["1.2.3.4", "48.85,2.35"]] =
      .ok [(48.85, 2.35)] := by
  constructor
  · intro li lj row hshort
    constructor
    · rintro ⟨hl2, hcom⟩
      unfold process_row effective_row
      have hne : row.isEmpty = false := by
        cases row
        · simp at hl2
        · rfl
      rw [if_neg (by simp [hne]), if_pos hshort, if_pos (by rw [hl2, hcom]; rfl)]
    · intro hneg
      unfold process_row effective_row
      by_cases hne : row.isEmpty = true
      · rw [if_pos hne]
      · rw [if_neg hne, if_pos hshort,
          if_neg (fun hq => hneg (by simpa using hq))]
  · with_unfolding_all rfl

/-- Witness for C4 at the concrete short row `["1.2.3.4", "48.85,2.35"]`
with resolved indices `(1, 2)`. -/
theorem claim_C4_witness :
    process_row 1 2 ["1.2.3.4", "48.85,2.35"] = .ok (some (48.85, 2.35)) := by
  have h := (claim_C4.1 1 2 ["1.2.3.4", "48.85,2.35"] (by decide)).1
    ⟨by decide, by with_unfolding_all rfl⟩
  rw [h]
  with_unfolding_all rfl

/-- Claim C5: a data row carrying decimal representations of an
in-range pair `(lat, lon)` at the resolved indices round-trips through
the loader unchanged: the result is exactly that point. -/
theorem claim_C5 (header row : List String) (latS lonS : String) (lat lon : ℚ)
    (hne : header.isEmpty = false)
    (hlen : max (resolve_indices header).1 (resolve_indices header).2 < row.length)
    (hlat : row.get? (resolve_indices header).1 = some latS)
    (hlon : row.get? (resolve_indices header).2 = some lonS)
    (plat : parse_float latS = some lat) (plon : parse_float lonS = some lon)
    (h1 : -90 ≤ lat) (h2 : lat ≤ 90) (h3 : -180 ≤ lon) (h4 : lon ≤ 180) :
    load_csv_points [header, row] = .ok [(lat, lon)] := by
  rw [load_csv_points_cons _ _ hne, load_rows]
  have hrne : row.isEmpty = false := by
    cases row
    · simp at hlen
    · rfl
  have heff : effective_row (resolve_indices header).1 (resolve_indices header).2 row
      = some row := by
    unfold effective_row
    rw [if_neg (by simp [hrne]), if_neg (not_le.mpr hlen)]
  have hext : extract_point (resolve_indices header).1 (resolve_indices header).2 row
      = .ok (some (lat, lon)) := by
    unfold extract_point
    rw [hlat]
    dsimp only
    rw [hlon]
    dsimp only
    rw [plat, plon]
    dsimp only
    rw [if_pos ⟨h1, h2, h3, h4⟩]
  have hpr : process_row (resolve_indices header).1 (resolve_indices header).2 row
      = .ok (some (lat, lon)) := by
    unfold process_row
    rw [heff]
    exact hext
  rw [hpr, load_rows]
  rfl

/-- Witness for C5 at the concrete pair `(37.4, -122.1)`. -/
theorem claim_C5_witness :
    load_csv_points [["latitude", "longitude"], ["37.4", "-122.1"]] =
      .ok [(37.4, -122.1)] :=
  claim_C5 ["latitude", "longitude"] ["37.4", "-122.1"] "37.4" "-122.1" 37.4 (-122.1)
    (by rfl) (by with_unfolding_all decide) (by with_unfolding_all rfl)
    (by with_unfolding_all rfl) (by with_unfolding_all rfl) (by with_unfolding_all rfl)
    (by norm_num) (by norm_num) (by norm_num) (by norm_num)

/-- Counterexample to C9 as stated: the loader can raise.  Header
`["a", "lat", "b", "lon"]` resolves the longitude column to index 3; the
2-field row `["x", "1,2"]` is comma-repaired to only 3 fields, and the
access `row[3]` raises `IndexError`. -/
theorem claim_C9_counterexample :
    load_csv_points [["a", "lat", "b", "lon"], ["x", "1,2"]] = .error "IndexError" := by
  with_unfolding_all rfl

/-- Claim C9 as amended: the loader returns a (possibly empty)
trajectory whenever both resolved indices are at most 2 — which covers
every fallback-resolved header — and a header-only or headerless input
yields the empty trajectory; the only raising inputs pair a named
coordinate column at index 3 or beyond with a comma-repaired short row. -/
theorem claim_C9 :
    (∀ (header : List String) (rest : List (List String)),
      (resolve_indices header).1 ≤ 2 → (resolve_indices header).2 ≤ 2 →
      ∃ pts, load_csv_points (header :: rest) = .ok pts) ∧
    (∀ header : List String, load_csv_points [header] = .ok []) ∧
    load_csv_points [] = .ok [] := by
  refine ⟨?_, ?_, rfl⟩
  · intro header rest hli hlj
    by_cases hh : header.isEmpty = true
    · rw [load_csv_points, hh]
      exact ⟨[], rfl⟩
    · rw [load_csv_points_cons _ _ (by simpa using hh)]
      exact load_rows_ok hli hlj rest
  · intro header
    by_cases hh : header.isEmpty = true
    · rw [load_csv_points, hh]
      rfl
    · rw [load_csv_points_cons _ _ (by simpa using hh)]
      rfl

/-- Witness for C9 at a concrete fallback-resolved input. -/
theorem claim_C9_witness :
    ∃ pts, load_csv_points [["lat", "lon"], ["1", "2"]] = .ok pts :=
  claim_C9.1 ["lat", "lon"] [["1", "2"]] (by with_unfolding_all decide)
    (by with_unfolding_all decide)

/-- Claim C10: a one-column header leaves an axis unresolved and both
count fallbacks inapplicable, so the last resort assumes indices
`(1, 2)`; under those indices a row contributes a point only if it has
at least 3 fields or is a comma-repaired 2-field row. -/
theorem claim_C10 (header : List String) (hlen : header.length = 1) :
    resolve_indices header = (1, 2) ∧
    ∀ (row : List String) (p : Point), process_row 1 2 row = .ok (some p) →
      3 ≤ row.length ∨ (row.length = 2 ∧ containsComma (row.getD 1 "") = true) := by
  constructor
  · obtain ⟨c, rfl⟩ : ∃ c, header = [c] := by
      cases header with
      | nil => simp at hlen
      | cons c cs =>
        cases cs with
        | nil => exact ⟨c, rfl⟩
        | cons d ds => simp at hlen
    rw [resolve_indices_eq]
    by_cases h1 : normCol c ∈ lat_candidates <;>
      by_cases h2 : normCol c ∈ lon_candidates
    · exact (candidates_disjoint _ h1 h2).elim
    all_goals simp [List.findIdx?, h1, h2]
  · intro row p hpr
    unfold process_row effective_row at hpr
    by_cases hne : row.isEmpty = true
    · rw [if_pos hne] at hpr
      simp at hpr
    · rw [if_neg hne] at hpr
      by_cases hs : row.length ≤ max 1 2
      · rw [if_pos hs] at hpr
        by_cases hc : (decide (row.length = 2) && containsComma (row.getD 1 "")) = true
        · right
          simpa using hc
        · rw [if_neg hc] at hpr
          simp at hpr
      · left
        omega
    
/-- Witness for C10 at the one-column header `["lat"]` and the 3-field
row `["a", "1", "2"]`. -/
theorem claim_C10_witness :
    resolve_indices ["lat"] = (1, 2) ∧
    (3 ≤ (["a", "1", "2"] : List String).length ∨
      ((["a", "1", "2"] : List String).length = 2 ∧
        containsComma ((["a", "1", "2"] : List String).getD 1 "") = true)) :=
  ⟨(claim_C10 ["lat"] rfl).1,
   (claim_C10 ["lat"] rfl).2 ["a", "1", "2"] (1, 2) (by with_unfolding_all rfl)⟩

/-! ## Lemmas about the bounds aggregator -/

/-- Python `min` over a non-empty list returns one of its elements. -/
theorem listMin_mem : ∀ (xs : List ℚ) (x : ℚ), listMin x xs ∈ x :: xs
  | [], x => by simp [listMin]
  | y :: ys, x => by
    have h := listMin_mem ys (min x y)
    rw [show listMin x (y :: ys) = listMin (min x y) ys from rfl]
    rcases List.mem_cons.mp h with h | h
    · rcases min_choice x y with hm | hm <;> rw [h, hm] <;> simp
    · simp [h]

/-- Python `min` over a non-empty list is a lower bound. -/
theorem listMin_le : ∀ (xs : List ℚ) (x : ℚ), ∀ y ∈ x :: xs, listMin x xs ≤ y
  | [], x => by simp [listMin]
  | z :: zs, x => by
    intro y hy
    have h := listMin_le zs (min x z)
    rw [show listMin x (z :: zs) = listMin (min x z) zs from rfl]
    rcases List.mem_cons.mp hy with rfl | hy
    · exact le_trans (h _ (List.mem_cons_self _ _)) (min_le_left _ _)
    rcases List.mem_cons.mp hy with rfl | hy
    · exact le_trans (h _ (List.mem_cons_self _ _)) (min_le_right _ _)
    · exact h _ (List.mem_cons_of_mem _ hy)

/-- Python `max` over a non-empty list returns one of its elements. -/
theorem listMax_mem : ∀ (xs : List ℚ) (x : ℚ), listMax x xs ∈ x :: xs
  | [], x => by simp [listMax]
  | y :: ys, x => by
    have h := listMax_mem ys (max x y)
    rw [show listMax x (y :: ys) = listMax (max x y) ys from rfl]
    rcases List.mem_cons.mp h with h | h
    · rcases max_choice x y with hm | hm <;> rw [h, hm] <;> simp
    · simp [h]

/-- Python `max` over a non-empty list is an upper bound. -/
theorem listMax_ge : ∀ (xs : List ℚ) (x : ℚ), ∀ y ∈ x :: xs, y ≤ listMax x xs
  | [], x => by simp [listMax]
  | z :: zs, x => by
    intro y hy
    have h := listMax_ge zs (max x z)
    rw [show listMax x (z :: zs) = listMax (max x z) zs from rfl]
    rcases List.mem_cons.mp hy with rfl | hy
    · exact le_trans (le_max_left _ _) (h _ (List.mem_cons_self _ _))
    rcases List.mem_cons.mp hy with rfl | hy
    · exact le_trans (le_max_right _ _) (h _ (List.mem_cons_self _ _))
    · exact h _ (List.mem_cons_of_mem _ hy)

/-- `fit_bounds_from_points`, characterised by the flattened point list. -/
theorem fit_bounds_eq (m : List (String × List Point)) :
    fit_bounds_from_points m =
      match all_points m with
      | [] => none
      | p :: ps =>
        some [(listMin p.1 (ps.map Prod.fst), listMin p.2 (ps.map Prod.snd)),
              (listMax p.1 (ps.map Prod.fst), listMax p.2 (ps.map Prod.snd))] := by
  simp only [fit_bounds_from_points, all_points]
  rcases (m.map Prod.snd).flatten with _ | ⟨p, ps⟩ <;> rfl

/-- The loops of `fit_bounds_from_points` see no point exactly when every
trajectory is empty. -/
theorem all_points_eq_nil (m : List (String × List Point)) :
    all_points m = [] ↔ ∀ tr ∈ m, tr.2 = [] := by
  unfold all_points
  rw [List.flatten_eq_nil_iff]
  constructor
  · intro h tr htr
    exact h tr.2 (List.mem_map_of_mem _ htr)
  · intro h l hl
    obtain ⟨tr, htr, rfl⟩ := List.mem_map.mp hl
    exact h tr htr

/-- Claim C6: the bounds aggregator returns `none` exactly when the
mapping is empty or every trajectory in it is empty; otherwise it
returns `[(min lat, min lon), (max lat, max lon)]`, the four extremes
taken independently per axis over every point of every trajectory — and
on the named example it returns `[(-5, 10), (20, 30)]`. -/
theorem claim_C6 :
    (∀ m : List (String × List Point),
      (fit_bounds_from_points m = none ↔ ∀ tr ∈ m, tr.2 = ([] : List Point)) ∧
      (∀ a b c d : ℚ, fit_bounds_from_points m = some [(a, b), (c, d)] →
        ((∃ p ∈ all_points m, p.1 = a) ∧ ∀ p ∈ all_points m, a ≤ p.1) ∧
        ((∃ p ∈ all_points m, p.2 = b) ∧ ∀ p ∈ all_points m, b ≤ p.2) ∧
        ((∃ p ∈ all_points m, p.1 = c) ∧ ∀ p ∈ all_points m, p.1 ≤ c) ∧
        ((∃ p ∈ all_points m, p.2 = d) ∧ ∀ p ∈ all_points m, p.2 ≤ d))) ∧
    fit_bounds_from_points [("a", [(10, 10), (20, 20)]), ("b", [(-5, 30)])] =
      some [(-5, 10), (20, 30)] := by
  constructor
  · intro m
    constructor
    · rw [fit_bounds_eq, ← all_points_eq_nil]
      rcases h : all_points m with _ | ⟨p, ps⟩ <;> simp
    · intro a b c d hfit
      rw [fit_bounds_eq] at hfit
      rcases h : all_points m with _ | ⟨p, ps⟩ <;> rw [h] at hfit
      · exact absurd hfit (by simp)
      simp only [Option.some.injEq, List.cons.injEq, Prod.mk.injEq, and_true] at hfit
      obtain ⟨⟨rfl, rfl⟩, rfl, rfl⟩ := hfit
      refine ⟨⟨?_, ?_⟩, ⟨?_, ?_⟩, ⟨?_, ?_⟩, ⟨?_, ?_⟩⟩
      · have hm := listMin_mem (ps.map Prod.fst) p.1
        rw [← List.map_cons] at hm
        obtain ⟨q, hq, hq1⟩ := List.mem_map.mp hm
        exact ⟨q, hq, hq1⟩
      · intro q hq
        have hmm : q.1 ∈ (p :: ps).map Prod.fst := List.mem_map_of_mem _ hq
        rw [List.map_cons] at hmm
        exact listMin_le _ _ _ hmm
      · have hm := listMin_mem (ps.map Prod.snd) p.2
        rw [← List.map_cons] at hm
        obtain ⟨q, hq, hq1⟩ := List.mem_map.mp hm
        exact ⟨q, hq, hq1⟩
      · intro q hq
        have hmm : q.2 ∈ (p :: ps).map Prod.snd := List.mem_map_of_mem _ hq
        rw [List.map_cons] at hmm
        exact listMin_le _ _ _ hmm
      · have hm := listMax_mem (ps.map Prod.fst) p.1
        rw [← List.map_cons] at hm
        obtain ⟨q, hq, hq1⟩ := List.mem_map.mp hm
        exact ⟨q, hq, hq1⟩
      · intro q hq
        have hmm : q.1 ∈ (p :: ps).map Prod.fst := List.mem_map_of_mem _ hq
        rw [List.map_cons] at hmm
        exact listMax_ge _ _ _ hmm
      · have hm := listMax_mem (ps.map Prod.snd) p.2
        rw [← List.map_cons] at hm
        obtain ⟨q, hq, hq1⟩ := List.mem_map.mp hm
        exact ⟨q, hq, hq1⟩
      · intro q hq
        have hmm : q.2 ∈ (p :: ps).map Prod.snd := List.mem_map_of_mem _ hq
        rw [List.map_cons] at hmm
        exact listMax_ge _ _ _ hmm
  · with_unfolding_all rfl

/-- Witness for C6: instantiating the aggregator contract on the named
example shows `-5` is attained as a minimum latitude. -/
theorem claim_C6_witness :
    ∃ p ∈ all_points [("a", [((10 : ℚ), (10 : ℚ)), (20, 20)]), ("b", [(-5, 30)])],
      p.1 = -5 :=
  (((claim_C6.1 [("a", [(10, 10), (20, 20)]), ("b", [(-5, 30)])]).2 (-5) 10 20 30
    (by with_unfolding_all rfl)).1).1

/-! ## Lemmas about the palette generator -/

/-- The fractional part `x % 1.0` is nonnegative. -/
theorem pymod1_nonneg (q : ℚ) : 0 ≤ pymod1 q := by
  unfold pymod1
  have h := Int.floor_le q
  linarith

/-- The fractional part `x % 1.0` is below one. -/
theorem pymod1_lt_one (q : ℚ) : pymod1 q < 1 := by
  unfold pymod1
  have h := Int.lt_floor_add_one q
  linarith

/-- With `m1 = 1/10` and `m2 = 9/10` — the values at lightness `0.5` and
saturation `0.8` — every `colorsys` channel stays inside `[1/10, 9/10]`. -/
theorem hls_v_bounds (hue : ℚ) :
    1/10 ≤ hls_v (1/10) (9/10) hue ∧ hls_v (1/10) (9/10) hue ≤ 9/10 := by
  simp only [hls_v]
  have h0 := pymod1_nonneg hue
  have h1 := pymod1_lt_one hue
  split_ifs with hA hB hC <;> constructor <;> linarith

/-- The three `colorsys` channels at the palette's fixed lightness and
saturation. -/
theorem colorsys_channel_bounds (h : ℚ) :
    (1/10 ≤ (colorsys_hls_to_rgb h (1/2) (4/5)).1 ∧
      (colorsys_hls_to_rgb h (1/2) (4/5)).1 ≤ 9/10) ∧
    (1/10 ≤ (colorsys_hls_to_rgb h (1/2) (4/5)).2.1 ∧
      (colorsys_hls_to_rgb h (1/2) (4/5)).2.1 ≤ 9/10) ∧
    (1/10 ≤ (colorsys_hls_to_rgb h (1/2) (4/5)).2.2 ∧
      (colorsys_hls_to_rgb h (1/2) (4/5)).2.2 ≤ 9/10) := by
  have e : colorsys_hls_to_rgb h (1/2) (4/5) =
      (hls_v (1/10) (9/10) (h + 1/3), hls_v (1/10) (9/10) h,
        hls_v (1/10) (9/10) (h - 1/3)) := by
    simp only [colorsys_hls_to_rgb]
    rw [if_neg (by norm_num), if_pos (by norm_num)]
    norm_num
  rw [e]
  exact ⟨hls_v_bounds _, hls_v_bounds _, hls_v_bounds _⟩

/-- Truncating 255 times a channel in `[1/10, 9/10]` lands in `[0, 255]`. -/
theorem pyint_channel {x : ℚ} (hlo : 1/10 ≤ x) (hhi : x ≤ 9/10) :
    0 ≤ pyint (x * 255) ∧ pyint (x * 255) ≤ 255 := by
  have hx : (0 : ℚ) ≤ x * 255 := by linarith
  unfold pyint
  rw [if_pos hx]
  constructor
  · rw [Int.le_floor]
    push_cast
    linarith
  · have hlt : ⌊x * 255⌋ < 256 := Int.floor_lt.mpr (by push_cast; linarith)
    omega

/-- The integer channels of `hls_to_rgb` at the palette's fixed lightness
and saturation are valid byte values. -/
theorem hls_to_rgb_bounds (h : ℚ) :
    (0 ≤ (hls_to_rgb h (1/2) (4/5)).1 ∧ (hls_to_rgb h (1/2) (4/5)).1 ≤ 255) ∧
    (0 ≤ (hls_to_rgb h (1/2) (4/5)).2.1 ∧ (hls_to_rgb h (1/2) (4/5)).2.1 ≤ 255) ∧
    (0 ≤ (hls_to_rgb h (1/2) (4/5)).2.2 ∧ (hls_to_rgb h (1/2) (4/5)).2.2 ≤ 255) := by
  have hb := colorsys_channel_bounds h
  simp only [hls_to_rgb]
  exact ⟨pyint_channel hb.1.1 hb.1.2, pyint_channel hb.2.1.1 hb.2.1.2,
    pyint_channel hb.2.2.1 hb.2.2.2⟩

/-- Each of the sixteen digit characters is a lowercase hex digit. -/
theorem hexChar_isLowerHex : ∀ n, n < 16 → isLowerHex (hexChar n) = true := by decide

/-- Both characters of a two-digit hex byte are lowercase hex digits. -/
theorem toHex2_hex {n : ℕ} (h : n < 256) : ∀ c ∈ toHex2 n, isLowerHex c = true := by
  intro c hc
  unfold toHex2 at hc
  simp only [List.mem_cons, List.not_mem_nil, or_false] at hc
  rcases hc with rfl | rfl
  · exact hexChar_isLowerHex _ (by omega)
  · exact hexChar_isLowerHex _ (by omega)

/-- A `rgb_to_hex` string over byte channels is `#` plus six lowercase
hex digits. -/
theorem rgb_to_hex_spec {r g b : ℤ} (hr0 : 0 ≤ r) (hr : r ≤ 255) (hg0 : 0 ≤ g)
    (hg : g ≤ 255) (hb0 : 0 ≤ b) (hb : b ≤ 255) :
    (rgb_to_hex r g b).data.length = 7 ∧ (rgb_to_hex r g b).data.head? = some '#' ∧
      ∀ c ∈ (rgb_to_hex r g b).data.drop 1, isLowerHex c = true := by
  unfold rgb_to_hex
  refine ⟨by simp [toHex2], rfl, ?_⟩
  intro c hc
  simp only [List.drop_succ_cons, List.drop_zero, List.mem_append] at hc
  rcases hc with (hc | hc) | hc
  · exact toHex2_hex (by omega) _ hc
  · exact toHex2_hex (by omega) _ hc
  · exact toHex2_hex (by omega) _ hc

/-- Claim C7: `generate_palette 0 = []`, and for positive `n` the palette
has exactly `n` strings, each 7 characters: `#` followed by six lowercase
hex digits (two zero-padded digits per channel). -/
theorem claim_C7 :
    generate_palette 0 = [] ∧
    ∀ n : ℤ, 0 < n →
      ((generate_palette n).length : ℤ) = n ∧
      ∀ s ∈ generate_palette n,
        s.data.length = 7 ∧ s.data.head? = some '#' ∧
          ∀ c ∈ s.data.drop 1, isLowerHex c = true := by
  refine ⟨rfl, ?_⟩
  intro n hn
  constructor
  · unfold generate_palette
    rw [if_neg (by omega), List.length_map, List.length_range]
    omega
  · intro s hs
    unfold generate_palette at hs
    rw [if_neg (by omega)] at hs
    simp only [List.mem_map, List.mem_range] at hs
    obtain ⟨i, hi, rfl⟩ := hs
    have hb := hls_to_rgb_bounds (pymod1 ((i : ℚ) / ((max 1 n : ℤ) : ℚ)))
    exact rgb_to_hex_spec hb.1.1 hb.1.2 hb.2.1.1 hb.2.1.2 hb.2.2.1 hb.2.2.2

/-- Witness for C7 at `n = 3`. -/
theorem claim_C7_witness : ((generate_palette 3).length : ℤ) = 3 :=
  (claim_C7.2 3 (by norm_num)).1

/-- Claim C8: for every trajectory count from 1 to 12, the palette's
color strings are pairwise distinct. -/
theorem claim_C8 (n : ℤ) (h1 : 1 ≤ n) (h2 : n ≤ 12) :
    (generate_palette n).Nodup := by
  interval_cases n <;> with_unfolding_all decide

/-- Witness for C8 at `n = 7`. -/
theorem claim_C8_witness : (generate_palette 7).Nodup :=
  claim_C8 7 (by norm_num) (by norm_num)

end Geoloc
